import Mathlib

/-!
Verification of the subtitle-to-prompt core of the Suno video generator
(`srt_to_prompts.py`). The Python source is shallowly embedded: strings are
`List Char`, seconds are exact rationals `ℚ`, regular-expression matching is
modelled by the equivalent deterministic character scans, and the whole
pipeline is a pure function from the subtitle document text to the list of
prompt records. Python's `str` operations (`strip`, `lower`, `capitalize`,
`split`, `in`) are modelled over ASCII, which covers every character the
fixed keyword tables and separators use.
-/

/-- Character list of a string literal (Python strings are modelled as `List Char`). -/
def str (s : String) : List Char := s.data

/-- Whitespace as recognised by Python's `str.strip` and the regex class (ASCII part). -/
def isPySpace (c : Char) : Bool :=
  c == ' ' || c == '\t' || c == '\n' || c == '\r' || c == '\x0b' || c == '\x0c'

/-- Characters admitted by the character class of digits, colon and comma used in
the timing-line regex of `parse_srt`. -/
def isTsChar (c : Char) : Bool := c.isDigit || c == ':' || c == ','

/-- Numeric value of an ASCII digit character (Python `int` on a digit). -/
def digitVal (c : Char) : ℕ := c.toNat - 48

/-- Python `str.strip()`: drop whitespace from both ends. -/
def pyStrip (l : List Char) : List Char :=
  ((l.dropWhile isPySpace).reverse.dropWhile isPySpace).reverse

/-- Python `str.lower()` (ASCII). -/
def pyLower (l : List Char) : List Char := l.map Char.toLower

/-- Python `str.capitalize()`: first character upper-cased, the rest lower-cased (ASCII). -/
def pyCapitalize : List Char → List Char
  | [] => []
  | c :: r => c.toUpper :: r.map Char.toLower

/-- Python `text.split(chr(10))`: split on every newline, keeping empty pieces. -/
def splitLines : List Char → List (List Char)
  | [] => [[]]
  | c :: rest =>
    if c == '\n' then [] :: splitLines rest
    else
      match splitLines rest with
      | l :: ls => (c :: l) :: ls
      | [] => [[c]]

/-- Python `sep.join(parts)`. -/
def joinSep (sep : List Char) : List (List Char) → List Char
  | [] => []
  | [x] => x
  | x :: y :: ys => x ++ sep ++ joinSep sep (y :: ys)

/-- Python `text.split(", ")` as used on the genre-map descriptions
(leftmost, non-overlapping occurrences of the two-character separator). -/
def splitCommaSpace : List Char → List (List Char)
  | [] => [[]]
  | ',' :: ' ' :: rest => [] :: splitCommaSpace rest
  | c :: rest =>
    match splitCommaSpace rest with
    | l :: ls => (c :: l) :: ls
    | [] => [[c]]

/-- Python substring test `needle == hay[0 : len needle]` (helper for `hasSub`). -/
def leadsWith : List Char → List Char → Bool
  | [], _ => true
  | _ :: _, [] => false
  | a :: as, b :: bs => a == b && leadsWith as bs

/-- Python substring containment `needle in hay`. -/
def hasSub (needle : List Char) : List Char → Bool
  | [] => leadsWith needle []
  | c :: rest => leadsWith needle (c :: rest) || hasSub needle rest

/-- Matching of the anchored regex of `parse_timestamp`
(two digits, colon, two digits, colon, two digits, comma, three digits, rest
of the input ignored), returning the four captured groups after Python's
`int` conversion. Models `re.match` on the pattern of line 20 of the source. -/
def matchTs : List Char → Option (ℕ × ℕ × ℕ × ℕ)
  | h1 :: h2 :: c1 :: m1 :: m2 :: c2 :: s1 :: s2 :: cm :: d1 :: d2 :: d3 :: _ =>
    if h1.isDigit && h2.isDigit && c1 == ':' && m1.isDigit && m2.isDigit && c2 == ':' &&
        s1.isDigit && s2.isDigit && cm == ',' && d1.isDigit && d2.isDigit && d3.isDigit then
      some (10 * digitVal h1 + digitVal h2,
            10 * digitVal m1 + digitVal m2,
            10 * digitVal s1 + digitVal s2,
            100 * digitVal d1 + 10 * digitVal d2 + digitVal d3)
    else none
  | _ => none

/-- The Timestamp Parser `parse_timestamp` of the source: on a match the offset
in seconds, otherwise the lenient default `0`. -/
def parse_timestamp (l : List Char) : ℚ :=
  match matchTs l with
  | some (h, m, s, ms) => (h : ℚ) * 3600 + (m : ℚ) * 60 + (s : ℚ) + (ms : ℚ) / 1000
  | none => 0

/-- Decides whether the first twelve characters of the input have the shape
`DD:DD:DD,DDD` (the condition under which the anchored regex of
`parse_timestamp` matches). -/
def shapePrefixOk : List Char → Bool
  | h1 :: h2 :: c1 :: m1 :: m2 :: c2 :: s1 :: s2 :: cm :: d1 :: d2 :: d3 :: _ =>
    h1.isDigit && h2.isDigit && c1 == ':' && m1.isDigit && m2.isDigit && c2 == ':' &&
      s1.isDigit && s2.isDigit && cm == ',' && d1.isDigit && d2.isDigit && d3.isDigit
  | _ => false

/-- Decides whether a string is exactly a `DD:DD:DD,DDD` timestamp
(the whole-string shape the specification's §4.1 describes). -/
def tsShapeFull : List Char → Bool
  | [h1, h2, c1, m1, m2, c2, s1, s2, cm, d1, d2, d3] =>
    h1.isDigit && h2.isDigit && c1 == ':' && m1.isDigit && m2.isDigit && c2 == ':' &&
      s1.isDigit && s2.isDigit && cm == ',' && d1.isDigit && d2.isDigit && d3.isDigit
  | _ => false

/-- Zero-padded two-digit rendering of a number below 100 (builds valid timestamps). -/
def fmt2 (n : ℕ) : List Char := [Nat.digitChar (n / 10), Nat.digitChar (n % 10)]

/-- Zero-padded three-digit rendering of a number below 1000 (builds valid timestamps). -/
def fmt3 (n : ℕ) : List Char :=
  [Nat.digitChar (n / 100), Nat.digitChar (n / 10 % 10), Nat.digitChar (n % 10)]

/-- Matching of the timing-line regex of `parse_srt` (line 47 of the source):
a nonempty run over `[0-9:,]`, optional whitespace, the arrow, optional
whitespace, a second nonempty run over `[0-9:,]`; anchored at the start,
trailing characters ignored. Returns the two captured groups. -/
def timing_match (l : List Char) : Option (List Char × List Char) :=
  if (l.takeWhile isTsChar).isEmpty then none
  else
    match (l.dropWhile isTsChar).dropWhile isPySpace with
    | '-' :: '-' :: '>' :: r2 =>
      if ((r2.dropWhile isPySpace).takeWhile isTsChar).isEmpty then none
      else some (l.takeWhile isTsChar, (r2.dropWhile isPySpace).takeWhile isTsChar)
    | _ => none

/-- Declarative reading of the timing-line regex: the line decomposes into a
nonempty group over `[0-9:,]`, whitespace, the arrow, whitespace, a second
nonempty group over `[0-9:,]`, and an arbitrary remainder. -/
def TimingOk (l : List Char) : Prop :=
  ∃ g1 w1 w2 g2 rest, l = g1 ++ w1 ++ ('-' :: '-' :: '>' :: (w2 ++ g2 ++ rest)) ∧
    g1 ≠ [] ∧ g2 ≠ [] ∧ (∀ c ∈ g1, isTsChar c = true) ∧ (∀ c ∈ w1, isPySpace c = true) ∧
    (∀ c ∈ w2, isPySpace c = true) ∧ (∀ c ∈ g2, isTsChar c = true)

/-- Timing-line condition as claim C2 words it: the line is exactly a
`DD:DD:DD,DDD` timestamp, optional whitespace, the arrow, optional
whitespace, and a second `DD:DD:DD,DDD` timestamp. -/
def claimTimingOk (l : List Char) : Bool :=
  let g1 := l.takeWhile isTsChar
  match (l.dropWhile isTsChar).dropWhile isPySpace with
  | '-' :: '-' :: '>' :: r2 =>
    let r3 := r2.dropWhile isPySpace
    tsShapeFull g1 && tsShapeFull (r3.takeWhile isTsChar) && (r3.dropWhile isTsChar).isEmpty
  | _ => false

/-- One subtitle cue, as built by `parse_srt` (all times in seconds). -/
structure Segment where
  start : ℚ
  end_ : ℚ
  duration : ℚ
  text : List Char
deriving DecidableEq

/-- Construction of a segment from the two matched timestamp groups and the
joined text lines, exactly as in the loop body of `parse_srt`. -/
def mkSegment (g1 g2 text : List Char) : Segment :=
  { start := parse_timestamp g1
    end_ := parse_timestamp g2
    duration := parse_timestamp g2 - parse_timestamp g1
    text := pyStrip text }

/-- Processing of one subtitle block by `parse_srt`: blocks with fewer than
three lines are skipped, line 1 must match the timing regex, the remaining
lines joined with single spaces form the cue text. -/
def process_block (block : List Char) : Option Segment :=
  match splitLines (pyStrip block) with
  | _ :: tline :: t1 :: trest =>
    match timing_match tline with
    | some (g1, g2) => some (mkSegment g1 g2 (joinSep [' '] (t1 :: trest)))
    | none => none
  | _ => none

/-- Splitting of the stripped document on blank lines, modelling Python's
`re.split` on a newline, greedy whitespace, newline pattern. The fuel
argument bounds the recursion by the input length and is never exhausted
(every step consumes at least one character). -/
def splitBlocksAux : ℕ → List Char → List Char → List (List Char)
  | _, [], acc => [acc.reverse]
  | 0, rest, acc => [acc.reverse ++ rest]
  | fuel + 1, c :: rest, acc =>
    if c == '\n' then
      let ws := rest.takeWhile isPySpace
      let t := (ws.reverse.takeWhile (fun x => !(x == '\n'))).length
      if t < ws.length then
        acc.reverse :: splitBlocksAux fuel (rest.drop (ws.length - t)) []
      else
        splitBlocksAux fuel rest (c :: acc)
    else splitBlocksAux fuel rest (c :: acc)

/-- Document split into subtitle blocks on blank-line boundaries. -/
def splitBlocks (s : List Char) : List (List Char) := splitBlocksAux s.length s []

/-- The Subtitle Segmenter `parse_srt` of the source, over the document text
(the file read of the Python function is outside the core boundary). -/
def parse_srt (content : List Char) : List Segment :=
  (splitBlocks (pyStrip content)).filterMap process_block

/-- Removal of every parenthesized span, modelling `re.sub` with the pattern of
line 147 of the source: at an opening parenthesis, drop up to and including
the next closing parenthesis if one exists; an unclosed parenthesis stays.
The fuel argument bounds the recursion by the input length and is never
exhausted. -/
def removeParensAux : ℕ → List Char → List Char
  | _, [] => []
  | 0, l => l
  | fuel + 1, c :: rest =>
    if c == '(' then
      match rest.dropWhile (fun x => !(x == ')')) with
      | ')' :: r => removeParensAux fuel r
      | _ => c :: removeParensAux fuel rest
    else c :: removeParensAux fuel rest

/-- Removal of every parenthesized background-vocal span. -/
def removeParens (l : List Char) : List Char := removeParensAux l.length l

/-- The derived style elements (`extract_style_elements` builds a dict with
these keys; an absent or empty style yields all fields empty, matching the
falsiness checks of the consumers). -/
structure StyleElements where
  genre : List Char := []
  mood : List Char := []
  atmosphere : List Char := []
  visual_keywords : List (List Char) := []

/-- The fixed genre-to-visual-description table of `extract_style_elements`,
in source order. -/
def genre_map : List (List Char × List Char) :=
  [(str "electronic", str "neon, digital, futuristic"),
   (str "synthwave", str "retro-futuristic, neon, 80s aesthetic, purple and pink"),
   (str "rock", str "dynamic, energetic, gritty"),
   (str "metal", str "dark, intense, dramatic lighting"),
   (str "jazz", str "moody, noir, sophisticated"),
   (str "classical", str "elegant, timeless, refined"),
   (str "folk", str "natural, organic, earthy"),
   (str "country", str "rustic, americana, warm tones"),
   (str "hip-hop", str "urban, vibrant, street culture"),
   (str "ambient", str "ethereal, atmospheric, dreamlike"),
   (str "trance", str "cosmic, transcendent, flowing"),
   (str "house", str "energetic, colorful, club atmosphere"),
   (str "techno", str "industrial, minimalist, stark"),
   (str "indie", str "artistic, authentic, creative"),
   (str "pop", str "bright, colorful, polished"),
   (str "soul", str "warm, emotional, intimate"),
   (str "blues", str "moody, emotional, atmospheric"),
   (str "punk", str "raw, rebellious, high contrast"),
   (str "psychedelic", str "surreal, colorful, mind-bending"),
   (str "progressive", str "complex, layered, evolving"),
   (str "cosmic", str "space, galaxies, stars, nebulae"),
   (str "cinematic", str "dramatic, movie-quality, epic"),
   (str "orchestral", str "grand, sweeping, majestic")]

/-- The fixed ordered mood-word list of `extract_style_elements`. -/
def mood_keywords : List (List Char) :=
  [str "dark", str "bright", str "moody", str "uplifting", str "melancholic", str "energetic",
   str "calm", str "intense", str "dreamy", str "powerful", str "gentle", str "dramatic"]

/-- The mood loop of `extract_style_elements`: first substring match wins, then
the loop breaks. -/
def find_mood : List (List Char) → List Char → List Char
  | [], _ => []
  | m :: ms, lower_style => if hasSub m lower_style then m else find_mood ms lower_style

/-- The Style Extractor `extract_style_elements` of the source. -/
def extract_style_elements (suno_style : List Char) : StyleElements :=
  if suno_style.isEmpty then {}
  else
    let lower_style := pyLower suno_style
    { genre := []
      mood := find_mood mood_keywords lower_style
      atmosphere := []
      visual_keywords :=
        genre_map.foldl
          (fun acc gd => if hasSub gd.1 lower_style then acc ++ splitCommaSpace gd.2 else acc) [] }

/-- The fixed structural-marker list of `generate_image_prompt`, in source order. -/
def structural_markers : List (List Char) :=
  [str "instrumental", str "intro", str "outro", str "bridge", str "solo",
   str "break", str "fade", str "interlude", str "chorus", str "verse", str "pre-chorus"]

/-- Python `lyric.startswith(chr(91))` on the cleaned lyric. -/
def startsWithBracket : List Char → Bool
  | '[' :: _ => true
  | _ => false

/-- Python `lyric.endswith(chr(93))` on the cleaned lyric. -/
def endsWithBracket (l : List Char) : Bool :=
  match l.getLast? with
  | some ']' => true
  | _ => false

/-- The Prompt Synthesizer `generate_image_prompt` of the source: clean the
cue, handle bracketed markers, fall back to the fixed literal when nothing
remains, then assemble the prompt parts joined with the bar separator. -/
def generate_image_prompt (lyric_text suno_style : List Char) (style_elements : StyleElements)
    (base_style : List Char) : List Char :=
  let lyric1 := pyStrip (removeParens (pyStrip lyric_text))
  let lyric2 :=
    if startsWithBracket lyric1 && endsWithBracket lyric1 then
      let marker := pyLower ((lyric1.drop 1).dropLast)
      if structural_markers.any (fun w => hasSub w marker) then
        str "Abstract visual interpretation of the music"
      else pyCapitalize marker ++ str " atmosphere"
    else lyric1
  let lyric3 :=
    if lyric2.isEmpty || lyric2.all isPySpace then
      str "Abstract visual interpretation of the music"
    else lyric2
  let parts1 : List (List Char) := [base_style]
  let parts2 :=
    if style_elements.visual_keywords.isEmpty then parts1
    else parts1 ++ [joinSep (str ", ") (style_elements.visual_keywords.take 3)]
  let parts3 :=
    if style_elements.mood.isEmpty then parts2
    else parts2 ++ [style_elements.mood ++ str " atmosphere"]
  joinSep (str " | ")
    (parts3 ++ [str "scene depicting: " ++ lyric3,
                str "16:9 aspect ratio, high quality, cinematic composition"])

/-- One output record of the pipeline, as built in the loop of `main`. -/
structure PromptRecord where
  sequence : ℕ
  start : ℚ
  end_ : ℚ
  duration : ℚ
  lyric : List Char
  lyric_cleaned : List Char
  prompt : List Char
  filename : List Char

/-- Zero-padded three-digit rendering of the 1-based sequence index
(Python format spec `03d`). -/
def pad3 (n : ℕ) : List Char :=
  let ds := Nat.toDigits 10 n
  List.replicate (3 - ds.length) '0' ++ ds

/-- Construction of one prompt record from a segment, exactly as in the loop
body of `main` (lines 254-274 of the source). -/
def mkRecord (i : ℕ) (seg : Segment) (suno_style : List Char) (se : StyleElements)
    (base_style : List Char) : PromptRecord :=
  { sequence := i
    start := seg.start
    end_ := seg.end_
    duration := seg.duration
    lyric := seg.text
    lyric_cleaned := pyStrip (removeParens seg.text)
    prompt := generate_image_prompt seg.text suno_style se base_style
    filename := str "scene_" ++ pad3 i ++ str ".jpg" }

/-- The record-building loop of `main` (`enumerate(segments, 1)`). -/
def build_records (suno_style : List Char) (se : StyleElements) (base_style : List Char) :
    ℕ → List Segment → List PromptRecord
  | _, [] => []
  | i, seg :: rest => mkRecord i seg suno_style se base_style :: build_records suno_style se base_style (i + 1) rest

/-- The in-memory core pipeline (§6 boundary): subtitle document text, style
text (empty when no style file is given) and base style in; the ordered
prompt records out. Mirrors `main` after file loading. -/
def pipeline_records (content suno_style base_style : List Char) : List PromptRecord :=
  build_records suno_style (extract_style_elements suno_style) base_style 1 (parse_srt content)

/-- The two-block subtitle document of the end-to-end scenario of claim C1. -/
def C1doc : List Char :=
  str "1\n00:00:00,000 --> 00:00:05,000\nHello world\n\n2\n00:00:05,000 --> 00:00:10,000\n(oohs) [Bridge]"

/-- One-block document whose timing line is not made of DD:DD:DD,DDD timestamps
but still matches the lenient timing regex (claim C2). -/
def C2doc : List Char := str "1\n0 --> 0\nx"

/-- One-block document whose start and end timestamps coincide (claim C4). -/
def C4doc : List Char := str "1\n00:00:00,000 --> 00:00:00,000\nx"

/-- Well-formed one-block document used as a concrete witness input. -/
def C8doc : List Char := str "1\n00:00:00,000 --> 00:00:01,000\nhi"

/-! ## Helper lemmas -/

theorem digitChar_isDigit {n : ℕ} (h : n < 10) : (Nat.digitChar n).isDigit = true := by
  interval_cases n <;> decide

theorem digitVal_digitChar {n : ℕ} (h : n < 10) : digitVal (Nat.digitChar n) = n := by
  interval_cases n <;> decide

theorem parse_timestamp_nonneg (l : List Char) : 0 ≤ parse_timestamp l := by
  unfold parse_timestamp
  match matchTs l with
  | none => exact le_refl 0
  | some (h, m, s, ms) => positivity

/-- C3 helper: without a well-shaped twelve-character run at the start, the
anchored regex does not match. -/
theorem matchTs_eq_none {l : List Char} (h : shapePrefixOk l = false) : matchTs l = none := by
  rcases l with _ | ⟨a, _ | ⟨b, _ | ⟨c, _ | ⟨d, _ | ⟨e, _ | ⟨f, _ | ⟨g, _ | ⟨a2, _ | ⟨b2, _ |
    ⟨c2, _ | ⟨d2, _ | ⟨e2, rest⟩⟩⟩⟩⟩⟩⟩⟩⟩⟩⟩⟩ <;>
    simp_all [matchTs, shapePrefixOk]

/-! ## Claim C6: valid timestamps parse to the exact second value -/

/-- C6: for every input string of the shape DD:DD:DD,DDD (two-digit hours,
minutes, seconds, comma, three-digit milliseconds), the Timestamp Parser
returns exactly h*3600 + m*60 + s + ms/1000. -/
theorem C6_timestamp_roundtrip (h m s ms : ℕ) (hh : h < 100) (hm : m < 100) (hs : s < 100)
    (hms : ms < 1000) :
    parse_timestamp (fmt2 h ++ ':' :: (fmt2 m ++ ':' :: (fmt2 s ++ ',' :: fmt3 ms))) =
      (h : ℚ) * 3600 + (m : ℚ) * 60 + (s : ℚ) + (ms : ℚ) / 1000 := by
  have e1 : digitVal (Nat.digitChar (h / 10)) = h / 10 := digitVal_digitChar (by omega)
  have e2 : digitVal (Nat.digitChar (h % 10)) = h % 10 := digitVal_digitChar (by omega)
  have e3 : digitVal (Nat.digitChar (m / 10)) = m / 10 := digitVal_digitChar (by omega)
  have e4 : digitVal (Nat.digitChar (m % 10)) = m % 10 := digitVal_digitChar (by omega)
  have e5 : digitVal (Nat.digitChar (s / 10)) = s / 10 := digitVal_digitChar (by omega)
  have e6 : digitVal (Nat.digitChar (s % 10)) = s % 10 := digitVal_digitChar (by omega)
  have e7 : digitVal (Nat.digitChar (ms / 100)) = ms / 100 := digitVal_digitChar (by omega)
  have e8 : digitVal (Nat.digitChar (ms / 10 % 10)) = ms / 10 % 10 := digitVal_digitChar (by omega)
  have e9 : digitVal (Nat.digitChar (ms % 10)) = ms % 10 := digitVal_digitChar (by omega)
  have hmt : matchTs (fmt2 h ++ ':' :: (fmt2 m ++ ':' :: (fmt2 s ++ ',' :: fmt3 ms))) =
      some (h, m, s, ms) := by
    simp only [fmt2, fmt3, List.cons_append, List.nil_append, matchTs,
      digitChar_isDigit (show h / 10 < 10 by omega), digitChar_isDigit (show h % 10 < 10 by omega),
      digitChar_isDigit (show m / 10 < 10 by omega), digitChar_isDigit (show m % 10 < 10 by omega),
      digitChar_isDigit (show s / 10 < 10 by omega), digitChar_isDigit (show s % 10 < 10 by omega),
      digitChar_isDigit (show ms / 100 < 10 by omega),
      digitChar_isDigit (show ms / 10 % 10 < 10 by omega),
      digitChar_isDigit (show ms % 10 < 10 by omega),
      beq_self_eq_true, Bool.and_true, Bool.true_and, if_true,
      e1, e2, e3, e4, e5, e6, e7, e8, e9, Option.some.injEq, Prod.mk.injEq]
    refine ⟨by omega, by omega, by omega, by omega⟩
  simp only [parse_timestamp, hmt]

/-- C6 witness: the timestamp 00:01:30,500 parses to 90.5 seconds. -/
theorem C6_witness : parse_timestamp (str "00:01:30,500") = 90.5 := by
  have h := C6_timestamp_roundtrip 0 1 30 500 (by norm_num) (by norm_num) (by norm_num)
    (by norm_num)
  have e : fmt2 0 ++ ':' :: (fmt2 1 ++ ':' :: (fmt2 30 ++ ',' :: fmt3 500)) =
      str "00:01:30,500" := by decide
  rw [e] at h
  rw [h]; norm_num

/-! ## Claim C3: malformed timestamps (corrected to leading-characters matching) -/

/-- C3 counterexample: the string 00:01:30,500x is not of the exact shape
DD:DD:DD,DDD, yet it parses to the non-zero value 90.5, refuting the claim
that no string outside that exact shape yields a non-zero offset. -/
theorem C3_counterexample :
    parse_timestamp (str "00:01:30,500x") = 90.5 ∧ tsShapeFull (str "00:01:30,500x") = false := by
  constructor
  · have hmt : matchTs (str "00:01:30,500x") = some (0, 1, 30, 500) := by decide
    simp only [parse_timestamp, hmt]
    norm_num
  · decide

/-- C3 (amended): for every input string whose first twelve characters do not
have the shape DD:DD:DD,DDD, the Timestamp Parser returns 0 and never raises
(the embedding is a total function); strings that begin with a well-shaped
twelve-character run parse to that run's value even with trailing characters. -/
theorem C3_amended_malformed_zero (l : List Char) (h : shapePrefixOk l = false) :
    parse_timestamp l = 0 := by
  unfold parse_timestamp
  rw [matchTs_eq_none h]

/-- C3 witness: a fully malformed string parses to 0. -/
theorem C3_witness : shapePrefixOk (str "banana") = false ∧ parse_timestamp (str "banana") = 0 :=
  ⟨by decide, C3_amended_malformed_zero _ (by decide)⟩

/-! ## Claim C10: the parser matches a leading run only -/

/-- C10: the Timestamp Parser only inspects the first twelve characters, so a
string whose first twelve characters have the shape DD:DD:DD,DDD parses to
the value of that leading run regardless of trailing characters; in
particular 00:01:30,500xyz and 00:01:30,5009 both parse to 90.5, which is
non-zero. -/
theorem C10_leading_chars_parse :
    (∀ (a b c d e f g h i j k m : Char) (rest : List Char),
        parse_timestamp (a :: b :: c :: d :: e :: f :: g :: h :: i :: j :: k :: m :: rest) =
          parse_timestamp [a, b, c, d, e, f, g, h, i, j, k, m]) ∧
    parse_timestamp (str "00:01:30,500xyz") = 90.5 ∧
    parse_timestamp (str "00:01:30,5009") = 90.5 ∧ (90.5 : ℚ) ≠ 0 := by
  refine ⟨fun a b c d e f g h i j k m rest => rfl, ?_, ?_, by norm_num⟩
  · have hmt : matchTs (str "00:01:30,500xyz") = some (0, 1, 30, 500) := by decide
    simp only [parse_timestamp, hmt]
    norm_num
  · have hmt : matchTs (str "00:01:30,5009") = some (0, 1, 30, 500) := by decide
    simp only [parse_timestamp, hmt]
    norm_num

/-! ## Structure of parsed segments and built records -/

/-- Every segment emitted by `process_block` is an `mkSegment`. -/
theorem process_block_eq_some {b : List Char} {seg : Segment} (h : process_block b = some seg) :
    ∃ g1 g2 t, seg = mkSegment g1 g2 t := by
  unfold process_block at h
  split at h
  · split at h
    · rename_i g1 g2 heq
      exact ⟨g1, g2, _, (Option.some_inj.mp h).symm⟩
    · simp at h
  · simp at h

/-- Every segment of `parse_srt` is an `mkSegment`. -/
theorem parse_srt_mem {content : List Char} {seg : Segment} (h : seg ∈ parse_srt content) :
    ∃ g1 g2 t, seg = mkSegment g1 g2 t := by
  unfold parse_srt at h
  rw [List.mem_filterMap] at h
  obtain ⟨b, _, hb⟩ := h
  exact process_block_eq_some hb

/-- Every record of the building loop comes from a member segment via `mkRecord`. -/
theorem build_records_mem {ss bs : List Char} {se : StyleElements} {rec : PromptRecord}
    {segs : List Segment} {i : ℕ} (h : rec ∈ build_records ss se bs i segs) :
    ∃ j seg, seg ∈ segs ∧ rec = mkRecord j seg ss se bs := by
  induction segs generalizing i with
  | nil => simp [build_records] at h
  | cons seg rest ih =>
    rw [build_records] at h
    rcases List.mem_cons.mp h with h1 | h2
    · exact ⟨i, seg, List.mem_cons_self _ _, h1⟩
    · obtain ⟨j, sg, hm, he⟩ := ih h2
      exact ⟨j, sg, List.mem_cons_of_mem _ hm, he⟩

/-! ## Claim C8: duration is always end minus start -/

/-- C8: every segment produced by the Subtitle Segmenter satisfies
duration = end - start exactly, and the duration copied into each
PromptRecord equals that same difference of the record's own copied times. -/
theorem C8_duration_consistency :
    (∀ (content : List Char) (seg : Segment), seg ∈ parse_srt content →
        seg.duration = seg.end_ - seg.start) ∧
    (∀ (content ss bs : List Char) (rec : PromptRecord),
        rec ∈ pipeline_records content ss bs → rec.duration = rec.end_ - rec.start) := by
  have hseg : ∀ (content : List Char) (seg : Segment), seg ∈ parse_srt content →
      seg.duration = seg.end_ - seg.start := by
    intro content seg h
    obtain ⟨g1, g2, t, rfl⟩ := parse_srt_mem h
    rfl
  refine ⟨hseg, ?_⟩
  intro content ss bs rec h
  obtain ⟨j, sg, hm, rfl⟩ := build_records_mem h
  exact hseg content sg hm

/-- C8 witness: the segment of a concrete well-formed document satisfies
duration = end - start. -/
theorem C8_witness :
    mkSegment (str "00:00:00,000") (str "00:00:01,000") (str "hi") ∈ parse_srt C8doc ∧
    (mkSegment (str "00:00:00,000") (str "00:00:01,000") (str "hi")).duration =
      (mkSegment (str "00:00:00,000") (str "00:00:01,000") (str "hi")).end_ -
        (mkSegment (str "00:00:00,000") (str "00:00:01,000") (str "hi")).start := by
  have e : parse_srt C8doc = [mkSegment (str "00:00:00,000") (str "00:00:01,000") (str "hi")] := rfl
  have hm : mkSegment (str "00:00:00,000") (str "00:00:01,000") (str "hi") ∈ parse_srt C8doc := by
    rw [e]; exact List.mem_singleton_self _
  exact ⟨hm, C8_duration_consistency.1 C8doc _ hm⟩

/-! ## Claim C4: segment time bounds (corrected: end > start is not enforced) -/

/-- C4 counterexample: a block whose start and end timestamps coincide is
parsed into a segment with end = start, refuting end > start (and hence
duration > 0). -/
theorem C4_counterexample : ∃ seg ∈ parse_srt C4doc, ¬ seg.start < seg.end_ := by
  have e : parse_srt C4doc = [mkSegment (str "00:00:00,000") (str "00:00:00,000") (str "x")] := rfl
  refine ⟨mkSegment (str "00:00:00,000") (str "00:00:00,000") (str "x"),
    by rw [e]; exact List.mem_singleton_self _, ?_⟩
  exact lt_irrefl _

/-- C4 (amended): every segment produced by the Subtitle Segmenter satisfies
start >= 0 and end >= 0; end > start is not guaranteed (a block whose end
timestamp is not later than its start yields end <= start). -/
theorem C4_amended_nonneg (content : List Char) (seg : Segment) (h : seg ∈ parse_srt content) :
    0 ≤ seg.start ∧ 0 ≤ seg.end_ := by
  obtain ⟨g1, g2, t, rfl⟩ := parse_srt_mem h
  exact ⟨parse_timestamp_nonneg g1, parse_timestamp_nonneg g2⟩

/-- C4 witness: the amended bounds hold on a concrete parsed segment. -/
theorem C4_witness :
    mkSegment (str "00:00:00,000") (str "00:00:00,000") (str "x") ∈ parse_srt C4doc ∧
    0 ≤ (mkSegment (str "00:00:00,000") (str "00:00:00,000") (str "x")).start ∧
    0 ≤ (mkSegment (str "00:00:00,000") (str "00:00:00,000") (str "x")).end_ := by
  have e : parse_srt C4doc = [mkSegment (str "00:00:00,000") (str "00:00:00,000") (str "x")] := rfl
  have hm : mkSegment (str "00:00:00,000") (str "00:00:00,000") (str "x") ∈ parse_srt C4doc := by
    rw [e]; exact List.mem_singleton_self _
  exact ⟨hm, C4_amended_nonneg C4doc _ hm⟩

/-! ## Character-run lemmas for the timing-line regex -/

theorem takeWhile_append_of_all {p : Char → Bool} {w r : List Char}
    (hw : ∀ c ∈ w, p c = true) : (w ++ r).takeWhile p = w ++ r.takeWhile p := by
  induction w with
  | nil => simp
  | cons a w ih =>
    have ha : p a = true := hw a (List.mem_cons_self _ _)
    have ih' := ih (fun c hc => hw c (List.mem_cons_of_mem _ hc))
    simp [List.takeWhile_cons, ha, ih']

theorem dropWhile_append_of_all {p : Char → Bool} {w r : List Char}
    (hw : ∀ c ∈ w, p c = true) : (w ++ r).dropWhile p = r.dropWhile p := by
  induction w with
  | nil => simp
  | cons a w ih =>
    have ha : p a = true := hw a (List.mem_cons_self _ _)
    have ih' := ih (fun c hc => hw c (List.mem_cons_of_mem _ hc))
    simp [List.dropWhile_cons, ha, ih']

theorem not_tsChar_of_space {c : Char} (h : isPySpace c = true) : isTsChar c = false := by
  simp only [isPySpace, Bool.or_eq_true, beq_iff_eq] at h
  have hc : c = ' ' ∨ c = '\t' ∨ c = '\n' ∨ c = '\r' ∨ c = '\x0b' ∨ c = '\x0c' := by tauto
  rcases hc with h' | h' | h' | h' | h' | h' <;> subst h' <;> decide

theorem not_space_of_tsChar {c : Char} (h : isTsChar c = true) : isPySpace c = false := by
  cases hs : isPySpace c
  · rfl
  · rw [not_tsChar_of_space hs] at h
    exact absurd h (by simp)

/-- The deterministic scan of `timing_match` succeeds exactly when the line has
a decomposition matching the declarative reading of the timing regex. -/
theorem timing_match_isSome_iff (l : List Char) :
    (timing_match l).isSome = true ↔ TimingOk l := by
  constructor
  · intro h
    simp only [timing_match] at h
    split at h
    · simp at h
    · rename_i hg1e
      split at h
      · rename_i r2 heq
        split at h
        · simp at h
        · rename_i hg2e
          simp only [List.isEmpty_eq_true] at hg1e hg2e
          refine ⟨l.takeWhile isTsChar, (l.dropWhile isTsChar).takeWhile isPySpace,
                  r2.takeWhile isPySpace, (r2.dropWhile isPySpace).takeWhile isTsChar,
                  (r2.dropWhile isPySpace).dropWhile isTsChar, ?_, hg1e, hg2e,
                  fun c hc => List.mem_takeWhile_imp hc, fun c hc => List.mem_takeWhile_imp hc,
                  fun c hc => List.mem_takeWhile_imp hc, fun c hc => List.mem_takeWhile_imp hc⟩
          have e1 : l = l.takeWhile isTsChar ++ l.dropWhile isTsChar :=
            (List.takeWhile_append_dropWhile _ _).symm
          have e2 : l.dropWhile isTsChar =
              (l.dropWhile isTsChar).takeWhile isPySpace ++ ('-' :: '-' :: '>' :: r2) := by
            conv_lhs => rw [← List.takeWhile_append_dropWhile (p := isPySpace)
              (l := l.dropWhile isTsChar)]
            rw [heq]
          have e3 : r2 = r2.takeWhile isPySpace ++ r2.dropWhile isPySpace :=
            (List.takeWhile_append_dropWhile _ _).symm
          have e4 : r2.dropWhile isPySpace =
              (r2.dropWhile isPySpace).takeWhile isTsChar ++
                (r2.dropWhile isPySpace).dropWhile isTsChar :=
            (List.takeWhile_append_dropWhile _ _).symm
          conv_lhs => rw [e1, e2]
          rw [e3]
          conv_lhs => rw [e4]
          simp [List.append_assoc]
      · simp at h
  · rintro ⟨g1, w1, w2, g2, rest, rfl, hg1, hg2, hg1ts, hw1, hw2, hg2ts⟩
    obtain ⟨a, g1t, rfl⟩ := List.exists_cons_of_ne_nil hg1
    obtain ⟨b, g2t, rfl⟩ := List.exists_cons_of_ne_nil hg2
    have ha : isTsChar a = true := hg1ts a (List.mem_cons_self _ _)
    have hb : isTsChar b = true := hg2ts b (List.mem_cons_self _ _)
    have h2 : (w1 ++ ('-' :: '-' :: '>' :: (w2 ++ (b :: g2t) ++ rest))).takeWhile isTsChar
        = [] := by
      cases w1 with
      | nil => simp [List.takeWhile_cons, (by decide : isTsChar '-' = false)]
      | cons c w1t =>
        have hc : isTsChar c = false := not_tsChar_of_space (hw1 c (List.mem_cons_self _ _))
        simp [List.takeWhile_cons, hc]
    have h1 : ((a :: g1t) ++ w1 ++ ('-' :: '-' :: '>' :: (w2 ++ (b :: g2t) ++ rest))).takeWhile
        isTsChar = (a :: g1t) := by
      rw [List.append_assoc, takeWhile_append_of_all hg1ts, h2, List.append_nil]
    have h3 : ((a :: g1t) ++ w1 ++ ('-' :: '-' :: '>' :: (w2 ++ (b :: g2t) ++ rest))).dropWhile
        isTsChar = w1 ++ ('-' :: '-' :: '>' :: (w2 ++ (b :: g2t) ++ rest)) := by
      rw [List.append_assoc, dropWhile_append_of_all hg1ts]
      cases w1 with
      | nil => simp [List.dropWhile_cons, (by decide : isTsChar '-' = false)]
      | cons c w1t =>
        have hc : isTsChar c = false := not_tsChar_of_space (hw1 c (List.mem_cons_self _ _))
        simp [List.dropWhile_cons, hc]
    have h4 : (w1 ++ ('-' :: '-' :: '>' :: (w2 ++ (b :: g2t) ++ rest))).dropWhile isPySpace
        = '-' :: '-' :: '>' :: (w2 ++ (b :: g2t) ++ rest) := by
      rw [dropWhile_append_of_all hw1]
      simp [List.dropWhile_cons, (by decide : isPySpace '-' = false)]
    have h5 : (w2 ++ (b :: g2t) ++ rest).dropWhile isPySpace = (b :: g2t) ++ rest := by
      rw [List.append_assoc, dropWhile_append_of_all hw2]
      simp [List.dropWhile_cons, not_space_of_tsChar hb]
    have h6 : ((b :: g2t) ++ rest).takeWhile isTsChar
        = b :: (g2t ++ rest).takeWhile isTsChar := by
      simp [List.takeWhile_cons, hb]
    simp only [timing_match, h1, h3, h4, h5, h6]
    simp

/-! ## Claim C2: block emission condition (corrected: lenient timing regex) -/

/-- C2 counterexample: the block of `C2doc` has three lines and its timing line
`0 --> 0` contains no DD:DD:DD,DDD timestamp, yet a Segment is emitted,
refuting "emits iff the timing line is timestamp --> timestamp with
timestamps of the §4.1 shape". -/
theorem C2_counterexample :
    (parse_srt C2doc).length = 1 ∧
    splitLines (pyStrip C2doc) = [str "1", str "0 --> 0", str "x"] ∧
    claimTimingOk (str "0 --> 0") = false :=
  ⟨rfl, by decide, by decide⟩

/-- C2 (amended): for every block with at least three lines, the Subtitle
Segmenter emits a Segment for the block if and only if the block's second
line matches, as a leading run, the lenient timing regex — a nonempty run of
digits, colons and commas, optional whitespace, the arrow, optional
whitespace, a second nonempty such run, trailing characters ignored. The
exact DD:DD:DD,DDD shape of §4.1 is not required; malformed timestamps
inside a matching timing line degrade to offset 0. -/
theorem C2_amended_timing_emission (block l0 tline l2 : List Char) (rest : List (List Char))
    (hl : splitLines (pyStrip block) = l0 :: tline :: l2 :: rest) :
    (process_block block).isSome = true ↔ TimingOk tline := by
  rw [← timing_match_isSome_iff]
  unfold process_block
  rw [hl]
  show (match timing_match tline with
        | some (g1, g2) => some (mkSegment g1 g2 (joinSep [' '] (l2 :: rest)))
        | none => none).isSome = true ↔ (timing_match tline).isSome = true
  cases h : timing_match tline with
  | none => simp
  | some p => cases p with | mk g1 g2 => simp

/-- C2 witness: on a concrete well-formed block the emission equivalence holds
with its hypothesis discharged by computation. -/
theorem C2_witness :
    splitLines (pyStrip C8doc) = [str "1", str "00:00:00,000 --> 00:00:01,000", str "hi"] ∧
    ((process_block C8doc).isSome = true ↔ TimingOk (str "00:00:00,000 --> 00:00:01,000")) :=
  ⟨by decide, C2_amended_timing_emission C8doc (str "1") (str "00:00:00,000 --> 00:00:01,000")
    (str "hi") [] (by decide)⟩

/-! ## Claim C1: the end-to-end scenario (corrected: lyric_cleaned is "[Bridge]") -/

/-- C1 counterexample: in the two-block end-to-end scenario with no style text
and base style "photorealistic", the second record's lyric_cleaned is the
non-empty string "[Bridge]" — removing the parenthetical span leaves the
bracketed marker — refuting the claim that lyric_cleaned is empty. -/
theorem C1_counterexample :
    (pipeline_records C1doc [] (str "photorealistic")).length = 2 ∧
    ((pipeline_records C1doc [] (str "photorealistic")).get? 1).map PromptRecord.lyric_cleaned =
      some (str "[Bridge]") ∧
    str "[Bridge]" ≠ ([] : List Char) :=
  ⟨rfl, rfl, by decide⟩

/-- C1 (amended): the two-block scenario yields exactly 2 PromptRecords; the
second record's lyric_cleaned equals "[Bridge]" (not the empty string); and
since the bracket content "Bridge" matches the structural-marker set, the
second record's prompt contains the substring
"scene depicting: Abstract visual interpretation of the music". -/
theorem C1_amended_pipeline :
    (pipeline_records C1doc [] (str "photorealistic")).length = 2 ∧
    ((pipeline_records C1doc [] (str "photorealistic")).get? 1).map PromptRecord.lyric_cleaned =
      some (str "[Bridge]") ∧
    ((pipeline_records C1doc [] (str "photorealistic")).get? 1).map PromptRecord.prompt =
      some (str "photorealistic | scene depicting: Abstract visual interpretation of the music | 16:9 aspect ratio, high quality, cinematic composition") ∧
    str "scene depicting: Abstract visual interpretation of the music" <:+:
      str "photorealistic | scene depicting: Abstract visual interpretation of the music | 16:9 aspect ratio, high quality, cinematic composition" :=
  ⟨rfl, rfl, rfl,
    ⟨str "photorealistic | ",
     str " | 16:9 aspect ratio, high quality, cinematic composition", by decide⟩⟩

/-! ## Join and infix lemmas for the prompt assembly -/

theorem joinSep_concat_ne_nil (sep y : List Char) (xs : List (List Char)) (hy : y ≠ []) :
    joinSep sep (xs ++ [y]) ≠ [] := by
  induction xs with
  | nil => simpa [joinSep] using hy
  | cons x xs ih =>
    cases xs with
    | nil => simp [joinSep, List.append_eq_nil, hy]
    | cons z zs =>
      simp only [List.cons_append, joinSep] at ih ⊢
      intro hcontra
      exact ih (List.append_eq_nil.mp hcontra).2

theorem infix_joinSep_of_mem {sep x : List Char} {xs : List (List Char)} (hx : x ∈ xs) :
    x <:+: joinSep sep xs := by
  induction xs with
  | nil => simp at hx
  | cons y ys ih =>
    cases ys with
    | nil =>
      rw [List.mem_singleton] at hx
      subst hx
      exact ⟨[], [], by simp [joinSep]⟩
    | cons z zs =>
      rcases List.mem_cons.mp hx with h1 | h2
      · subst h1
        exact ⟨[], sep ++ joinSep sep (z :: zs), by simp [joinSep, List.append_assoc]⟩
      · obtain ⟨s, t, hst⟩ := ih h2
        exact ⟨y ++ sep ++ s, t, by
          simp only [joinSep]
          rw [← hst]
          simp [List.append_assoc]⟩

theorem infix_of_concat_mem {pre l sep : List Char} {xs : List (List Char)}
    (hx : pre ++ l ∈ xs) : l <:+: joinSep sep xs := by
  obtain ⟨s, t, hst⟩ := @infix_joinSep_of_mem sep _ _ hx
  exact ⟨s ++ pre, t, by rw [← hst]; simp [List.append_assoc]⟩

/-! ## Claim C9: the synthesizer is total and never yields an empty prompt -/

/-- C9: for every cue text (including empty and whitespace-only), every
StyleElements value and every base style string, the Prompt Synthesizer
returns a non-empty prompt; being a total function of the embedding it
never raises. -/
theorem C9_prompt_nonempty (lyric_text suno_style base_style : List Char) (se : StyleElements) :
    generate_image_prompt lyric_text suno_style se base_style ≠ [] := by
  simp only [generate_image_prompt]
  have hsplit : ∀ (P : List (List Char)) (S T : List Char), P ++ [S, T] = (P ++ [S]) ++ [T] := by
    simp
  rw [hsplit]
  exact joinSep_concat_ne_nil _ _ _ (by decide)

/-! ## Claim C5: bracketed markers -/

/-- C5: if the cleaned cue text is fully wrapped in a single bracket pair, then
a structural-section marker occurring as substring of the lower-cased inner
text makes the prompt contain the fixed literal, and otherwise the prompt
contains the capitalized marker followed by " atmosphere". -/
theorem C5_bracket_markers (lyric_text suno_style base_style inner : List Char)
    (se : StyleElements)
    (hclean : pyStrip (removeParens (pyStrip lyric_text)) = '[' :: (inner ++ [']']))
    (hnb : ∀ c ∈ inner, c ≠ '[' ∧ c ≠ ']') :
    (structural_markers.any (fun w => hasSub w (pyLower inner)) = true →
      str "Abstract visual interpretation of the music" <:+:
        generate_image_prompt lyric_text suno_style se base_style) ∧
    (structural_markers.any (fun w => hasSub w (pyLower inner)) = false →
      pyCapitalize (pyLower inner) ++ str " atmosphere" <:+:
        generate_image_prompt lyric_text suno_style se base_style) := by
  have hstart : startsWithBracket ('[' :: (inner ++ [']'])) = true := rfl
  have hend : endsWithBracket ('[' :: (inner ++ [']'])) = true := by
    unfold endsWithBracket
    rw [show ('[' :: (inner ++ [']'])) = ('[' :: inner) ++ [']'] from by simp,
      List.getLast?_concat]
    decide
  constructor <;> intro hcond
  · have h3 : (str "Abstract visual interpretation of the music").isEmpty = false := by decide
    have h4 : (str "Abstract visual interpretation of the music").all isPySpace = false := by
      decide
    simp only [generate_image_prompt, hclean, hstart, hend, Bool.and_self,
      List.drop_succ_cons, List.drop_zero, List.dropLast_concat, hcond, h3, h4,
      Bool.or_self, Bool.false_or, Bool.false_eq_true, Bool.or_false,
      eq_self_iff_true, if_true, if_false, ite_true, ite_false]
    exact infix_of_concat_mem (List.mem_append_right _ (List.mem_cons_self _ _))
  · have h3 : (pyCapitalize (pyLower inner) ++ str " atmosphere").isEmpty = false := by
      simp [str]
    have h4 : (pyCapitalize (pyLower inner) ++ str " atmosphere").all isPySpace = false := by
      rw [List.all_append]
      have : (str " atmosphere").all isPySpace = false := by decide
      simp [this]
    simp only [generate_image_prompt, hclean, hstart, hend, Bool.and_self,
      List.drop_succ_cons, List.drop_zero, List.dropLast_concat, hcond, h3, h4,
      Bool.or_self, Bool.false_or, Bool.false_eq_true, Bool.or_false,
      eq_self_iff_true, if_true, if_false, ite_true, ite_false]
    exact infix_of_concat_mem (List.mem_append_right _ (List.mem_cons_self _ _))

/-- C5 witness: the cue "[Intense]" (no structural marker) yields a prompt
containing "Intense atmosphere". -/
theorem C5_witness :
    str "Intense atmosphere" <:+:
      generate_image_prompt (str "[Intense]") [] {} (str "photorealistic") := by
  have h := C5_bracket_markers (str "[Intense]") [] (str "photorealistic") (str "Intense") {}
    (by decide) (by decide)
  have e : pyCapitalize (pyLower (str "Intense")) ++ str " atmosphere" =
      str "Intense atmosphere" := by decide
  rw [← e]
  exact h.2 (by decide)

/-! ## Claim C7: first-match-wins mood extraction -/

theorem find_mood_first {ls : List Char} {pre suf : List (List Char)} {m : List Char}
    (hnone : ∀ m' ∈ pre, hasSub m' ls = false) (hm : hasSub m ls = true) :
    find_mood (pre ++ m :: suf) ls = m := by
  induction pre with
  | nil => simp [find_mood, hm]
  | cons p pre ih =>
    have hp := hnone p (List.mem_cons_self _ _)
    simp [find_mood, hp, ih (fun q hq => hnone q (List.mem_cons_of_mem _ hq))]

/-- C7: the Style Extractor assigns at most one mood, taking the first word of
the fixed ordered mood list that occurs as a substring of the lower-cased
style text; in particular any style text containing both "dark" and
"energetic" gets mood "dark". -/
theorem C7_mood_first_match :
    (∀ (style : List Char) (pre suf : List (List Char)) (m : List Char),
        mood_keywords = pre ++ m :: suf → hasSub m (pyLower style) = true →
        (∀ m' ∈ pre, hasSub m' (pyLower style) = false) →
        (extract_style_elements style).mood = m) ∧
    (∀ style : List Char, hasSub (str "dark") (pyLower style) = true →
        hasSub (str "energetic") (pyLower style) = true →
        (extract_style_elements style).mood = str "dark") := by
  have hgen : ∀ (style : List Char) (pre suf : List (List Char)) (m : List Char),
      mood_keywords = pre ++ m :: suf → hasSub m (pyLower style) = true →
      (∀ m' ∈ pre, hasSub m' (pyLower style) = false) →
      (extract_style_elements style).mood = m := by
    intro style pre suf m hmk hm hnone
    have hne : style ≠ [] := by
      intro hsty
      subst hsty
      have hmem : m ∈ mood_keywords := by
        rw [hmk]; exact List.mem_append_right _ (List.mem_cons_self _ _)
      have hall : ∀ x ∈ mood_keywords, x ≠ ([] : List Char) := by decide
      have hm' : m = [] := by
        cases m with
        | nil => rfl
        | cons a as => simp [hasSub, leadsWith, pyLower] at hm
      exact hall m hmem hm'
    unfold extract_style_elements
    rw [if_neg (by simpa [List.isEmpty_eq_true] using hne)]
    show find_mood mood_keywords (pyLower style) = m
    rw [hmk]
    exact find_mood_first hnone hm
  exact ⟨hgen, fun style h1 h2 => hgen style [] _ (str "dark") rfl h1 (by simp)⟩

/-- C7 witness: a style text containing both "dark" and "energetic" gets mood
"dark" only. -/
theorem C7_witness : (extract_style_elements (str "dark energetic")).mood = str "dark" :=
  C7_mood_first_match.2 (str "dark energetic") (by decide) (by decide)
